import Mathlib

/-
Verification of the caching synthesizer core
(src/vocode/streaming/synthesizer/caching_synthesizer.py).

The embedding models bytes as lists of naturals, async generators as a
state machine over a finite list of pending chunk records, and the two
external services (the redis key-value store and the hashlib md5 digest)
as opaque parameters.  Fallible outcomes (a pull that raises, a replay
built over a missing cache value) are explicit constructors.
-/

namespace CachingSynth

/-- A byte string, modelled as a list of naturals. -/
abbrev Bytes := List Nat

/-- Modelled from the spec: `SynthesizerConfig` (models/synthesizer.py is not
part of the sources).  The spec describes it as an opaque serializable
configuration holding the backend kind (`type`), a voice identity
(`voice_name` / `voice_id`, either of which may be absent), the audio
encoding, the sampling rate and the `should_encode_as_wav` switch, with a
deterministic serialization; `json` is that canonical serialization,
kept opaque. -/
structure SynthesizerConfig where
  type : String
  voice_name : Option String
  voice_id : Option String
  audio_encoding : String
  sampling_rate : Nat
  should_encode_as_wav : Bool
  json : String
deriving DecidableEq

/-- Model of `get_voice_id` (source lines 13-19).  Python `voice or config.type`
falls back to the type both when `voice` is `None` and when it is the
empty string (both are falsy). -/
def get_voice_id (synthesizer_config : SynthesizerConfig) : String :=
  let voice : Option String :=
    if synthesizer_config.type = "synthesizer_azure" ∨ synthesizer_config.type = "synthesizer_google" then
      synthesizer_config.voice_name
    else if synthesizer_config.type = "synthesizer_eleven_labs" ∨
        synthesizer_config.type = "synthesizer_play_ht" ∨
        synthesizer_config.type = "synthesizer_coqui" then
      synthesizer_config.voice_id
    else
      none
  match voice with
  | some v => if v = "" then synthesizer_config.type else v
  | none => synthesizer_config.type

/-- Python whitespace class for the regex `\s` and for `str.strip`
(ASCII fragment: space, tab, newline, carriage return, vertical tab,
form feed). -/
def pyIsSpace (c : Char) : Bool :=
  c = ' ' || c = '\t' || c = '\n' || c = '\r' || c = '\x0b' || c = '\x0c'

/-- Python word-character class for the regex `\w` (ASCII fragment:
letters, digits and the underscore); `\W` is its complement. -/
def pyIsWord (c : Char) : Bool :=
  ('a' ≤ c && c ≤ 'z') || ('A' ≤ c && c ≤ 'Z') || ('0' ≤ c && c ≤ '9') || c = '_'

/-- Model of `str.strip()`: remove leading and trailing whitespace. -/
def pyStrip (l : List Char) : List Char :=
  ((l.dropWhile pyIsSpace).reverse.dropWhile pyIsSpace).reverse

/-- Model of `re.sub` with a pattern of the form `[class]+` and a one-character
replacement: every maximal run of characters satisfying `p` is replaced
by the single character `rep`.  Only the last character of a run emits
the replacement, which yields one `rep` per maximal run. -/
def collapseRuns (p : Char → Bool) (rep : Char) : List Char → List Char
  | [] => []
  | c :: rest =>
    if p c then
      match rest with
      | [] => [rep]
      | d :: rest' =>
        if p d then collapseRuns p rep (d :: rest')
        else rep :: collapseRuns p rep (d :: rest')
    else c :: collapseRuns p rep rest

/-- The `cleaned_text` computed inside `cache_key` (source lines 25-30):
lowercase, strip, collapse whitespace runs to `_`, collapse `\W+` runs
to `-`. -/
def cleaned_text_chars (text : String) : List Char :=
  collapseRuns (fun c => !(pyIsWord c)) '-'
    (collapseRuns pyIsSpace '_' (pyStrip (text.data.map Char.toLower)))

/-- Model of `cache_key` (source lines 22-34).  The external digest
`hashlib.md5((cleaned_text + config_text).encode()).hexdigest()[:8]` is
modelled by the opaque parameter `md5hex8`; `config_text` is the opaque
canonical serialization `synthesizer_config.json()`. -/
def cache_key (md5hex8 : String → String) (text : String)
    (synthesizer_config : SynthesizerConfig) : String :=
  let config_text := synthesizer_config.json
  let cleaned_text := cleaned_text_chars text
  let voice_id := get_voice_id synthesizer_config
  let hash_value := md5hex8 (String.mk cleaned_text ++ config_text)
  synthesizer_config.type ++ "_" ++ voice_id ++ "_" ++
    synthesizer_config.audio_encoding ++ "_" ++
    toString synthesizer_config.sampling_rate ++ "/" ++
    String.mk (cleaned_text.take 32) ++ "_" ++ hash_value

example : cleaned_text_chars "Hello, World!" = "hello-_world-".data := by decide
example : cleaned_text_chars "hello   world!" = "hello_world-".data := by decide
example : cleaned_text_chars "  a  b  " = "a_b".data := by decide

/-- Model of `SynthesisResult.ChunkResult`: one streamed audio chunk with its
end-of-stream flag (constructed as `ChunkResult(chunk, is_final)` in the
source). -/
structure ChunkResult where
  chunk : Bytes
  is_final : Bool
deriving DecidableEq

/-- Python `range(0, stop, step)` for a non-negative `step`: the indices
`0, step, 2*step, ...` below `stop` (`(stop + step - 1) / step` of them;
empty when `step = 0`, where Python would raise instead — every use in
the source has a positive `chunk_size`). -/
def pyRange (stop step : Nat) : List Nat :=
  (List.range ((stop + step - 1) / step)).map (fun k => k * step)

/-- The replay chunk generator inside
`CachingSynthesizer.create_synthesis_result_from_bytes` (source lines
138-147): for each slice start `i` produced by
`range(0, len(output_bytes), chunk_size)`, emit the transformed slice,
flagged final exactly when `i + chunk_size > len(output_bytes)`. -/
def chunk_generator (chunk_transform : Bytes → Bytes) (output_bytes : Bytes)
    (chunk_size : Nat) : List ChunkResult :=
  (pyRange output_bytes.length chunk_size).map (fun i =>
    if i + chunk_size > output_bytes.length then
      ⟨chunk_transform (output_bytes.drop i), true⟩
    else
      ⟨chunk_transform ((output_bytes.drop i).take chunk_size), false⟩)

example : chunk_generator (fun c => c) [1, 2, 3, 4, 5] 2 =
    [⟨[1, 2], false⟩, ⟨[3, 4], false⟩, ⟨[5], true⟩] := by decide
example : chunk_generator (fun c => c) [1, 2, 3, 4] 2 =
    [⟨[1, 2], false⟩, ⟨[3, 4], false⟩] := by decide
example : chunk_generator (fun c => c) [] 3 = [] := by decide

/-- The source async generator feeding the tee: a finite list of pending
chunk records plus the closed flag set by `aclose`.  Pulling a closed or
exhausted generator raises `StopAsyncIteration` (modelled as `none`). -/
structure Gen where
  items : List ChunkResult
  closed : Bool
deriving DecidableEq

/-- One `__anext__` on the raw source generator. -/
def Gen.anext (g : Gen) : Option ChunkResult × Gen :=
  if g.closed then (none, g)
  else
    match g.items with
    | [] => (none, g)
    | c :: rest => (some c, ⟨rest, g.closed⟩)

/-- Outcome of one consumer pull: a yielded record, `StopAsyncIteration`,
or another exception (`TypeError` from `None += bytes`). -/
inductive Pull where
  | item (c : ChunkResult)
  | stop
  | error
deriving DecidableEq

/-- The per-chunk accumulation payload (source lines 50-52):
`chunk_result.chunk[44:]` when `remove_wav_header`, the whole chunk
otherwise. -/
def stripChunk (remove_wav_header : Bool) (c : ChunkResult) : Bytes :=
  if remove_wav_header then c.chunk.drop 44 else c.chunk

/-- State of `AsyncGeneratorWrapper` (source lines 37-42): the wrapped
generator, the accumulation buffer (`none` models the Python `None` it
is set to after the completion callback fired), and the header-strip
flag.  The `when_finished` callback is not stored; its invocations are
reported as events by the operations below. -/
structure AsyncGeneratorWrapper where
  generator : Gen
  all_bytes : Option Bytes
  remove_wav_header : Bool
deriving DecidableEq

/-- Model of `AsyncGeneratorWrapper.__init__`: fresh buffer, open source. -/
def initWrapper (items : List ChunkResult) (remove_wav_header : Bool) :
    AsyncGeneratorWrapper :=
  ⟨⟨items, false⟩, some [], remove_wav_header⟩

/-- Model of `AsyncGeneratorWrapper.__anext__` (source lines 47-57): pull the
source; on a yielded record with a truthy chunk, append the (possibly
header-stripped) payload to `all_bytes` and forward the record
unchanged; on `StopAsyncIteration`, invoke `when_finished(all_bytes)`
(the event), null the buffer, re-raise.  Appending to a `None` buffer
raises `TypeError` (`.error`); a record with an empty chunk skips the
append. -/
def AsyncGeneratorWrapper.anext (w : AsyncGeneratorWrapper) :
    Pull × AsyncGeneratorWrapper × List (Option Bytes) :=
  match Gen.anext w.generator with
  | (some c, g') =>
    if c.chunk = [] then
      (.item c, ⟨g', w.all_bytes, w.remove_wav_header⟩, [])
    else
      match w.all_bytes with
      | some b =>
        (.item c, ⟨g', some (b ++ stripChunk w.remove_wav_header c), w.remove_wav_header⟩, [])
      | none => (.error, ⟨g', none, w.remove_wav_header⟩, [])
  | (none, g') => (.stop, ⟨g', none, w.remove_wav_header⟩, [w.all_bytes])

/-- Model of `AsyncGeneratorWrapper.aclose` (source lines 59-62): invoke
`when_finished(all_bytes)` with whatever is in the buffer, null the
buffer, close the source generator. -/
def AsyncGeneratorWrapper.aclose (w : AsyncGeneratorWrapper) :
    AsyncGeneratorWrapper × List (Option Bytes) :=
  (⟨⟨w.generator.items, true⟩, none, w.remove_wav_header⟩, [w.all_bytes])

/-- Model of `AsyncGeneratorWrapper.asend` (source lines 64-65): forwarded
straight to the source generator — the wrapper neither observes the
returned record nor touches `all_bytes`.  The source generators here
ignore sent values, so a send resumes exactly like a pull; an exhausted
source raises `StopAsyncIteration`, which propagates uncaught. -/
def AsyncGeneratorWrapper.asend (w : AsyncGeneratorWrapper) :
    Pull × AsyncGeneratorWrapper :=
  match Gen.anext w.generator with
  | (some c, g') => (.item c, ⟨g', w.all_bytes, w.remove_wav_header⟩)
  | (none, g') => (.stop, ⟨g', w.all_bytes, w.remove_wav_header⟩)

/-- Result of `n` consecutive consumer pulls: the pull outcomes in
order, the final wrapper state, and the `when_finished` invocations
(each carrying the buffer it was passed). -/
structure PullNRes where
  outs : List Pull
  w : AsyncGeneratorWrapper
  events : List (Option Bytes)
deriving DecidableEq

/-- Run `n` consecutive `__anext__` pulls on the wrapper. -/
def pullN : Nat → AsyncGeneratorWrapper → PullNRes
  | 0, w => ⟨[], w, []⟩
  | n + 1, w =>
    let s := w.anext
    let r := pullN n s.2.1
    ⟨s.1 :: r.outs, r.w, s.2.2 ++ r.events⟩

/-- Run `n` consecutive pulls directly on the raw source generator, for
comparison with the tee-wrapped stream. -/
def genPullN : Nat → Gen → List Pull × Gen
  | 0, g => ([], g)
  | n + 1, g =>
    match Gen.anext g with
    | (some c, g') =>
      let r := genPullN n g'
      (.item c :: r.1, r.2)
    | (none, g') =>
      let r := genPullN n g'
      (.stop :: r.1, r.2)

example :
    (pullN 3 (initWrapper [⟨[1, 2], false⟩, ⟨[3], true⟩] false)).events =
      [some [1, 2, 3]] := by decide
example :
    (pullN 2 (initWrapper ([] : List ChunkResult) false)).events =
      [some [], none] := by decide

/-- The redis client, modelled at its interface: the answers the two
calls made by `create_speech` return.  `getQ` answering `none` models a
`get` that produces no value for the key (redis `nil`). -/
structure Redis where
  existsQ : String → Bool
  getQ : String → Option Bytes

/-- The inner (backend) synthesizer, modelled at its interface: its
configuration (`get_synthesizer_config` returns it) and, per
(text, chunk_size), the chunk stream its `create_speech` result would
yield. -/
structure Inner where
  synthesizer_config : SynthesizerConfig
  speechChunks : String → Nat → List ChunkResult

/-- The chunk stream of a replay result: either an actual finite list of
records, or a stream whose first pull raises (built over a missing
value, where the generator body runs `len(None)`). -/
inductive ReplayBody where
  | ok (chunks : List ChunkResult)
  | raisesOnFirstPull
deriving DecidableEq

/-- Model of `CachingSynthesizer.create_synthesis_result_from_bytes` (source
lines 130-154), reduced to its chunk stream: picks the per-chunk
transform (`encode_as_wav` — external, modelled by the opaque parameter
`encodeWav` — when `should_encode_as_wav`, identity otherwise) and
builds the replay generator.  `output_bytes = none` (a `get` that
returned nothing) yields a poisoned stream: the generator body runs
`len(None)` on the first pull, so the first pull raises `TypeError`
(`.raisesOnFirstPull`); nothing fails before that pull, since both the
generator body and the cutoff lambda are lazy. -/
def create_synthesis_result_from_bytes (should_encode_as_wav : Bool)
    (encodeWav : Bytes → Bytes) (output_bytes : Option Bytes)
    (chunk_size : Nat) : ReplayBody :=
  let chunk_transform := if should_encode_as_wav then encodeWav else fun c => c
  match output_bytes with
  | some bs => .ok (chunk_generator chunk_transform bs chunk_size)
  | none => .raisesOnFirstPull

/-- What `create_speech` hands back: a replay stream built from cached
bytes (possibly poisoned), or the live backend stream wrapped in the
tee. -/
inductive SpeechResult where
  | replay (body : ReplayBody)
  | live (w : AsyncGeneratorWrapper)
deriving DecidableEq

/-- Outcome of one `create_speech` call: the produced result, and
whether the inner synthesizer's `create_speech` was invoked. -/
structure CreateSpeechOut where
  result : SpeechResult
  innerCalled : Bool
deriving DecidableEq

/-- Model of `CachingSynthesizer.create_speech` (source lines 108-128): derive
the key; if `exists` answers true, build a replay result from `get`'s
answer — `create_synthesis_result_from_bytes` always returns a (truthy)
result object, so `if not result` never sends an exists-hit to the
backend, even when `get` produced nothing; otherwise call the inner
synthesizer and wrap its stream in the tee, with
`remove_wav_header = inner.synthesizer_config.should_encode_as_wav`. -/
def create_speech (md5hex8 : String → String) (encodeWav : Bytes → Bytes)
    (redis : Redis) (inner : Inner) (text : String) (chunk_size : Nat) :
    CreateSpeechOut :=
  let key := cache_key md5hex8 text inner.synthesizer_config
  if redis.existsQ key then
    { result := .replay (create_synthesis_result_from_bytes
        inner.synthesizer_config.should_encode_as_wav encodeWav
        (redis.getQ key) chunk_size)
      innerCalled := false }
  else
    { result := .live (initWrapper (inner.speechChunks text chunk_size)
        inner.synthesizer_config.should_encode_as_wav)
      innerCalled := true }

/-- The `when_finished` callback wired on a cache miss (source lines
124-125): `lambda all_bytes: redisClient.set(cache_key(message.text,
inner.get_synthesizer_config()), bytes(all_bytes))`.  The key is
re-derived at invocation time from the text and the inner synthesizer's
current configuration.  Applied to a callback event, it gives the
`set(key, value)` call the event produces; an event carrying `none`
means `bytes(None)` raised, so no set call results. -/
def when_finished_set (md5hex8 : String → String) (inner : Inner)
    (text : String) (e : Option Bytes) : Option (String × Bytes) :=
  e.map (fun b => (cache_key md5hex8 text inner.synthesizer_config, b))

/-- The buffer update one pulled record performs (source lines 50-52),
as a fold step: skip when the chunk is falsy (empty), append the
possibly stripped payload otherwise. -/
def accStep (remove_wav_header : Bool) (b : Bytes) (c : ChunkResult) : Bytes :=
  if c.chunk = [] then b else b ++ stripChunk remove_wav_header c

/-- Accumulated buffer after pulling the records `ys` starting from
buffer `b0`. -/
def accFold (remove_wav_header : Bool) (b0 : Bytes) (ys : List ChunkResult) : Bytes :=
  ys.foldl (accStep remove_wav_header) b0

/-! ### Helper lemmas about the tee -/

lemma stripChunk_empty (flag : Bool) (c : ChunkResult) (h : c.chunk = []) :
    stripChunk flag c = [] := by
  simp [stripChunk, h]

lemma accFold_eq_append (flag : Bool) (ys : List ChunkResult) :
    ∀ b0 : Bytes, accFold flag b0 ys = b0 ++ (ys.map (stripChunk flag)).flatten := by
  induction ys with
  | nil => intro b0; simp [accFold]
  | cons c rest ih =>
    intro b0
    have hstep : accFold flag b0 (c :: rest) = accFold flag (accStep flag b0 c) rest := rfl
    rw [hstep, ih]
    by_cases hc : c.chunk = []
    · simp [accStep, hc, stripChunk_empty flag c hc]
    · simp [accStep, hc, List.append_assoc]

lemma pullN_take (flag : Bool) :
    ∀ (n : Nat) (xs : List ChunkResult) (b0 : Bytes), n ≤ xs.length →
      pullN n ⟨⟨xs, false⟩, some b0, flag⟩ =
        ⟨(xs.take n).map .item, ⟨⟨xs.drop n, false⟩, some (accFold flag b0 (xs.take n)), flag⟩, []⟩ := by
  intro n
  induction n with
  | zero => intro xs b0 _; simp [pullN, accFold]
  | succ n ih =>
    intro xs b0 h
    cases xs with
    | nil => simp at h
    | cons c rest =>
      have h' : n ≤ rest.length := by simpa using h
      have hacc : accFold flag b0 (c :: rest.take n) =
          accFold flag (accStep flag b0 c) (rest.take n) := rfl
      by_cases hc : c.chunk = []
      · simp [pullN, AsyncGeneratorWrapper.anext, Gen.anext, hc, ih rest b0 h',
          hacc, accStep]
      · simp [pullN, AsyncGeneratorWrapper.anext, Gen.anext, hc,
          ih rest (b0 ++ stripChunk flag c) h', hacc, accStep]

lemma pullN_add (m n : Nat) (w : AsyncGeneratorWrapper) :
    pullN (m + n) w =
      ⟨(pullN m w).outs ++ (pullN n (pullN m w).w).outs,
       (pullN n (pullN m w).w).w,
       (pullN m w).events ++ (pullN n (pullN m w).w).events⟩ := by
  induction m generalizing w with
  | zero => simp [pullN]
  | succ m ih =>
    have hrw : m + 1 + n = (m + n) + 1 := by omega
    rw [hrw]
    simp only [pullN]
    rw [ih]
    simp [List.append_assoc]

lemma drain_exhaust (xs : List ChunkResult) (flag : Bool) (b0 : Bytes) :
    pullN (xs.length + 1) ⟨⟨xs, false⟩, some b0, flag⟩ =
      ⟨xs.map .item ++ [.stop], ⟨⟨[], false⟩, none, flag⟩,
       [some (accFold flag b0 xs)]⟩ := by
  rw [pullN_add]
  rw [pullN_take flag xs.length xs b0 le_rfl]
  simp [pullN, AsyncGeneratorWrapper.anext, Gen.anext]

lemma pullN_exhausted (flag : Bool) (k : Nat) :
    pullN k ⟨⟨[], false⟩, none, flag⟩ =
      ⟨List.replicate k .stop, ⟨⟨[], false⟩, none, flag⟩,
       List.replicate k (none : Option Bytes)⟩ := by
  induction k with
  | zero => simp [pullN]
  | succ k ih =>
    simp [pullN, AsyncGeneratorWrapper.anext, Gen.anext, ih, List.replicate_succ]

lemma pullN_outs_eq_genPullN :
    ∀ (n : Nat) (w : AsyncGeneratorWrapper),
      (w.all_bytes = none → w.generator.items = [] ∨ w.generator.closed = true) →
      (pullN n w).outs = (genPullN n w.generator).1 := by
  intro n
  induction n with
  | zero => intro w _; rfl
  | succ n ih =>
    intro w hinv
    obtain ⟨⟨items, closed⟩, ab, flag⟩ := w
    cases closed with
    | true =>
      have hrec := ih ⟨⟨items, true⟩, none, flag⟩ (fun _ => Or.inr rfl)
      simp only [pullN, genPullN, AsyncGeneratorWrapper.anext, Gen.anext] at *
      simpa using hrec
    | false =>
      cases items with
      | nil =>
        have hrec := ih ⟨⟨[], false⟩, none, flag⟩ (fun _ => Or.inl rfl)
        simp only [pullN, genPullN, AsyncGeneratorWrapper.anext, Gen.anext] at *
        simpa using hrec
      | cons c rest =>
        cases ab with
        | none =>
          rcases hinv rfl with h | h <;> simp at h
        | some b =>
          by_cases hc : c.chunk = []
          · have hrec := ih ⟨⟨rest, false⟩, some b, flag⟩ (by intro h; simp at h)
            simp only [pullN, genPullN, AsyncGeneratorWrapper.anext, Gen.anext] at *
            simpa [hc] using hrec
          · have hrec := ih ⟨⟨rest, false⟩, some (b ++ stripChunk flag c), flag⟩
              (by intro h; simp at h)
            simp only [pullN, genPullN, AsyncGeneratorWrapper.anext, Gen.anext] at *
            simpa [hc] using hrec

/-! ### Helper lemmas about the replay chunker -/

lemma chunk_generator_nil_bytes (t : Bytes → Bytes) (cs : Nat) :
    chunk_generator t [] cs = [] := by
  rcases Nat.eq_zero_or_pos cs with h | h
  · subst h; simp [chunk_generator, pyRange]
  · simp [chunk_generator, pyRange, Nat.div_eq_of_lt (show cs - 1 < cs by omega)]

lemma chunk_generator_short (t : Bytes → Bytes) (bs : Bytes) (cs : Nat)
    (h1 : bs ≠ []) (h2 : bs.length ≤ cs) :
    (chunk_generator t bs cs).map (·.chunk) = [t bs] := by
  have hL : 0 < bs.length := List.length_pos.mpr h1
  have hcs : 0 < cs := lt_of_lt_of_le hL h2
  have hsplit : bs.length + cs - 1 = (bs.length - 1) + cs := by omega
  have hcount : (bs.length + cs - 1) / cs = 1 := by
    rw [hsplit, Nat.add_div_right _ hcs, Nat.div_eq_of_lt (by omega)]
  simp only [chunk_generator, pyRange, hcount,
    (by decide : List.range 1 = [0]), List.map_cons, List.map_nil, Nat.zero_mul]
  by_cases hlt : bs.length < cs
  · simp [hlt]
  · simp [hlt, List.take_of_length_le h2]

lemma chunk_generator_cons (t : Bytes → Bytes) (bs : Bytes) (cs : Nat)
    (hcs : 0 < cs) (h : cs < bs.length) :
    chunk_generator t bs cs =
      ⟨t (bs.take cs), false⟩ :: chunk_generator t (bs.drop cs) cs := by
  have hL : bs.length + cs - 1 = ((bs.length - cs) + cs - 1) + cs := by omega
  have hcount : (bs.length + cs - 1) / cs = ((bs.length - cs) + cs - 1) / cs + 1 := by
    rw [hL, Nat.add_div_right _ hcs]
  simp only [chunk_generator, pyRange, List.map_map, List.length_drop]
  rw [hcount, List.range_succ_eq_map]
  rw [List.map_cons, List.map_map]
  congr 1
  · have hno : ¬ (0 + cs > bs.length) := by omega
    simp only [Function.comp_apply, Nat.zero_mul, List.drop_zero]
    rw [if_neg hno]
  · apply List.map_congr_left
    intro k _
    simp only [Function.comp_apply]
    have hmul : Nat.succ k * cs = k * cs + cs := Nat.succ_mul k cs
    have hdd : (bs.drop cs).drop (k * cs) = bs.drop (k * cs + cs) := by
      rw [List.drop_drop]; congr 1; omega
    rw [hmul, hdd]
    by_cases hfin : k * cs + cs > bs.length - cs
    · rw [if_pos hfin, if_pos (by omega)]
    · rw [if_neg hfin, if_neg (by omega)]

lemma flatten_chunk_generator (cs : Nat) (hcs : 0 < cs) :
    ∀ (n : Nat) (bs : Bytes), bs.length ≤ n →
      ((chunk_generator (fun c => c) bs cs).map (·.chunk)).flatten = bs := by
  intro n
  induction n with
  | zero =>
    intro bs h
    have : bs = [] := by
      cases bs with
      | nil => rfl
      | cons a l => simp at h
    subst this
    simp [chunk_generator_nil_bytes]
  | succ n ih =>
    intro bs h
    by_cases hnil : bs = []
    · subst hnil; simp [chunk_generator_nil_bytes]
    · by_cases hle : bs.length ≤ cs
      · rw [chunk_generator_short _ _ _ hnil hle]; simp
      · push_neg at hle
        rw [chunk_generator_cons _ _ _ hcs hle]
        simp only [List.map_cons, List.flatten_cons]
        rw [ih (bs.drop cs) (by simp [List.length_drop]; omega)]
        exact List.take_append_drop cs bs

/-! ### Helper lemmas about the cache key -/

lemma string_data_append (a b : String) : (a ++ b).data = a.data ++ b.data := by
  cases a; cases b; rfl

lemma cache_key_data (m : String → String) (t : String) (c : SynthesizerConfig) :
    (cache_key m t c).data =
      (c.type ++ "_" ++ get_voice_id c ++ "_" ++ c.audio_encoding ++ "_" ++
        toString c.sampling_rate ++ "/" ++
        String.mk ((cleaned_text_chars t).take 32) ++ "_").data ++
      (m (String.mk (cleaned_text_chars t) ++ c.json)).data := by
  simp [cache_key, string_data_append, List.append_assoc]

/-! ### Concrete fixtures for witnesses and counterexamples -/

/-- A stand-in for the external md5 hex digest: the real
`hashlib.md5(...).hexdigest()[:8]` is outside this repository, so
witnesses instantiate the opaque digest parameter with a constant
8-character answer. -/
def md5hex8stub : String → String := fun _ => "00000000"

/-- A fixed azure voice configuration used by the concrete scenarios. -/
def cfg0 : SynthesizerConfig :=
  { type := "synthesizer_azure", voice_name := some "en-US", voice_id := none,
    audio_encoding := "linear16", sampling_rate := 8000,
    should_encode_as_wav := false, json := "cfg" }

/-- The same configuration with `should_encode_as_wav` on. -/
def cfgWav : SynthesizerConfig := { cfg0 with should_encode_as_wav := true }

/-- A store that misses every key. -/
def redisMiss : Redis := ⟨fun _ => false, fun _ => none⟩

/-- A store whose `exists` answers true and whose `get` returns three
bytes, for every key. -/
def redisHit3 : Redis := ⟨fun _ => true, fun _ => some [1, 2, 3]⟩

/-- A store whose `exists` answers true but whose `get` produces no
value (the exists/get race). -/
def redisBroken : Redis := ⟨fun _ => true, fun _ => none⟩

/-- A backend whose stream is empty, with the plain configuration. -/
def inner0 : Inner := ⟨cfg0, fun _ _ => []⟩

/-- A backend with `should_encode_as_wav` on whose stream is a 46-byte
chunk followed by a 1-byte final chunk (so the 44-byte header strip is
exercised). -/
def innerWav : Inner := ⟨cfgWav, fun _ _ => [⟨List.range 46, false⟩, ⟨[7], true⟩]⟩

/-! ### Claim theorems -/

/-- C1: on a cache miss, `create_speech` returns the backend stream
wrapped in the tee (with the header-strip flag taken from
`should_encode_as_wav`), and once the consumer pulls the wrapped stream
to exhaustion the completion callback performs exactly one store set,
at the key re-derived from the request text and the synthesizer
configuration, with value the concatenation of all forwarded chunk
payloads, each stripped of its first 44 bytes when
`should_encode_as_wav` is configured and taken whole otherwise. -/
theorem create_speech_miss_populates_cache
    (md5hex8 : String → String) (encodeWav : Bytes → Bytes)
    (redis : Redis) (inner : Inner) (text : String) (chunk_size : Nat)
    (hmiss : redis.existsQ (cache_key md5hex8 text inner.synthesizer_config) = false) :
    (create_speech md5hex8 encodeWav redis inner text chunk_size).result =
      .live (initWrapper (inner.speechChunks text chunk_size)
        inner.synthesizer_config.should_encode_as_wav) ∧
    ((pullN ((inner.speechChunks text chunk_size).length + 1)
          (initWrapper (inner.speechChunks text chunk_size)
            inner.synthesizer_config.should_encode_as_wav)).events).map
        (when_finished_set md5hex8 inner text) =
      [some (cache_key md5hex8 text inner.synthesizer_config,
        ((inner.speechChunks text chunk_size).map
          (stripChunk inner.synthesizer_config.should_encode_as_wav)).flatten)] := by
  constructor
  · simp [create_speech, hmiss]
  · simp only [initWrapper]
    rw [drain_exhaust]
    simp [when_finished_set, accFold_eq_append]

/-- C1 witness: a concrete miss with the wav flag on; the single set
call carries the bytes of both chunks, each stripped of its first 44
bytes. -/
theorem create_speech_miss_populates_cache_witness :
    redisMiss.existsQ (cache_key md5hex8stub "hi" innerWav.synthesizer_config) = false ∧
    ((create_speech md5hex8stub (fun c => c) redisMiss innerWav "hi" 2).result =
        .live (initWrapper (innerWav.speechChunks "hi" 2)
          innerWav.synthesizer_config.should_encode_as_wav) ∧
      ((pullN ((innerWav.speechChunks "hi" 2).length + 1)
            (initWrapper (innerWav.speechChunks "hi" 2)
              innerWav.synthesizer_config.should_encode_as_wav)).events).map
          (when_finished_set md5hex8stub innerWav "hi") =
        [some (cache_key md5hex8stub "hi" innerWav.synthesizer_config,
          ((innerWav.speechChunks "hi" 2).map
            (stripChunk innerWav.synthesizer_config.should_encode_as_wav)).flatten)]) :=
  ⟨by decide,
   create_speech_miss_populates_cache md5hex8stub (fun c => c) redisMiss innerWav
     "hi" 2 (by decide)⟩

/-- C2 (code bug): when the buffer length is a positive exact multiple
of the chunk size, the replay chunker emits no final record at all —
here a 2-byte buffer with chunk size 2 yields a single record flagged
`is_final = false`, because the guard `i + chunk_size > len` is false
on the last slice of an exact multiple. -/
theorem chunk_generator_exact_multiple_no_final :
    chunk_generator (fun c => c) [0, 1] 2 = [⟨[0, 1], false⟩] ∧
    (chunk_generator (fun c => c) [0, 1] 2).countP (·.is_final) = 0 := by
  decide

/-- C3 counterexample: pulling the tee twice on an empty source invokes
`when_finished` twice (once with the empty accumulation, once with the
nulled buffer), so the callback is not invoked at most once per stream
instance. -/
theorem when_finished_twice_on_repeated_pulls :
    ¬ (pullN 2 (initWrapper ([] : List ChunkResult) false)).events.length ≤ 1 := by
  decide

/-- C3 (amended): the callback fires once per terminating pull, not at
most once per lifetime: draining a stream of `xs.length` records with
`xs.length + 1 + k` pulls invokes `when_finished` exactly `1 + k`
times — once at first exhaustion with the accumulated bytes, and once
more with the nulled (`None`) buffer for every extra pull after
exhaustion. -/
theorem when_finished_once_per_terminating_pull
    (xs : List ChunkResult) (flag : Bool) (k : Nat) :
    (pullN (xs.length + 1 + k) (initWrapper xs flag)).events =
      some ((xs.map (stripChunk flag)).flatten) :: List.replicate k none := by
  rw [pullN_add]
  simp only [initWrapper]
  rw [drain_exhaust]
  simp [pullN_exhausted, accFold_eq_append]

/-- C4 counterexample: with the fixed configuration `cfg0` (and the
stand-in digest), the key for "Hello, World!" has text segment
`hello-_world-` — not `hello-world` — and the key for
"hello   world!" is a different string, not an identical one: the
comma and the bang each become a dash (they are not collapsed together
with the whitespace), so the two normalizations differ. -/
theorem cache_key_scenario_fails :
    cache_key md5hex8stub "Hello, World!" cfg0 ≠
      cache_key md5hex8stub "hello   world!" cfg0 ∧
    cache_key md5hex8stub "Hello, World!" cfg0 =
      "synthesizer_azure_en-US_linear16_8000/hello-_world-_00000000" ∧
    cache_key md5hex8stub "hello   world!" cfg0 =
      "synthesizer_azure_en-US_linear16_8000/hello_world-_00000000" := by
  refine ⟨?_, ?_, ?_⟩ <;> decide

/-- C4 (amended): "Hello, World!" normalizes to `hello-_world-` and
"hello   world!" to `hello_world-` (runs of whitespace become one
underscore, every other run of non-word characters becomes one dash),
so the two derived keys differ for every possible digest function. -/
theorem cache_key_normalization_scenario (m : String → String) :
    cleaned_text_chars "Hello, World!" = "hello-_world-".data ∧
    cleaned_text_chars "hello   world!" = "hello_world-".data ∧
    cache_key m "Hello, World!" cfg0 ≠ cache_key m "hello   world!" cfg0 := by
  refine ⟨by decide, by decide, ?_⟩
  intro heq
  have hd := congrArg String.data heq
  rw [cache_key_data, cache_key_data] at hd
  rw [(by decide : (cfg0.type ++ "_" ++ get_voice_id cfg0 ++ "_" ++
      cfg0.audio_encoding ++ "_" ++ toString cfg0.sampling_rate ++ "/" ++
      String.mk ((cleaned_text_chars "Hello, World!").take 32) ++ "_") =
      "synthesizer_azure_en-US_linear16_8000/hello-_world-_")] at hd
  rw [(by decide : (cfg0.type ++ "_" ++ get_voice_id cfg0 ++ "_" ++
      cfg0.audio_encoding ++ "_" ++ toString cfg0.sampling_rate ++ "/" ++
      String.mk ((cleaned_text_chars "hello   world!").take 32) ++ "_") =
      "synthesizer_azure_en-US_linear16_8000/hello_world-_")] at hd
  have h51 := congrArg (List.take 51) hd
  rw [List.take_append_of_le_length (by decide),
    List.take_append_of_le_length (by decide)] at h51
  exact absurd h51 (by decide)

/-- C5: when `exists` answers true for the derived key and `get`
returns a value, `create_speech` returns a replay result built by the
replay chunker over the fetched bytes (with the backend's configured
transform) and never invokes the inner synthesizer's `create_speech`. -/
theorem create_speech_hit_bypasses_backend
    (md5hex8 : String → String) (encodeWav : Bytes → Bytes)
    (redis : Redis) (inner : Inner) (text : String) (chunk_size : Nat) (bs : Bytes)
    (hex : redis.existsQ (cache_key md5hex8 text inner.synthesizer_config) = true)
    (hget : redis.getQ (cache_key md5hex8 text inner.synthesizer_config) = some bs) :
    (create_speech md5hex8 encodeWav redis inner text chunk_size).innerCalled = false ∧
    (create_speech md5hex8 encodeWav redis inner text chunk_size).result =
      .replay (.ok (chunk_generator
        (if inner.synthesizer_config.should_encode_as_wav then encodeWav else fun c => c)
        bs chunk_size)) := by
  constructor <;> simp [create_speech, hex, hget, create_synthesis_result_from_bytes]

/-- C5 witness: a concrete hit on three cached bytes. -/
theorem create_speech_hit_bypasses_backend_witness :
    (redisHit3.existsQ (cache_key md5hex8stub "hi" inner0.synthesizer_config) = true ∧
      redisHit3.getQ (cache_key md5hex8stub "hi" inner0.synthesizer_config) =
        some [1, 2, 3]) ∧
    ((create_speech md5hex8stub (fun c => c) redisHit3 inner0 "hi" 2).innerCalled = false ∧
      (create_speech md5hex8stub (fun c => c) redisHit3 inner0 "hi" 2).result =
        .replay (.ok (chunk_generator
          (if inner0.synthesizer_config.should_encode_as_wav then (fun c => c)
            else fun c => c) [1, 2, 3] 2))) :=
  ⟨⟨by decide, by decide⟩,
   create_speech_hit_bypasses_backend md5hex8stub (fun c => c) redisHit3 inner0
     "hi" 2 [1, 2, 3] (by decide) (by decide)⟩

/-- C6: with the identity transform, concatenating the payloads of all
records the replay chunker produces over a buffer reconstructs exactly
that buffer, for every positive chunk size; and the empty buffer
produces zero records. -/
theorem replay_round_trip (bs : Bytes) (chunk_size : Nat) (hcs : 0 < chunk_size) :
    ((chunk_generator (fun c => c) bs chunk_size).map (·.chunk)).flatten = bs ∧
    chunk_generator (fun c => c) ([] : Bytes) chunk_size = [] :=
  ⟨flatten_chunk_generator chunk_size hcs bs.length bs le_rfl,
   chunk_generator_nil_bytes _ _⟩

/-- C6 witness: round trip of a three-byte buffer at chunk size two. -/
theorem replay_round_trip_witness :
    0 < 2 ∧
    (((chunk_generator (fun c => c) [1, 2, 3] 2).map (·.chunk)).flatten = [1, 2, 3] ∧
      chunk_generator (fun c => c) ([] : Bytes) 2 = []) :=
  ⟨by decide, replay_round_trip [1, 2, 3] 2 (by decide)⟩

/-- C7 counterexample: with a store whose `exists` answers true but
whose `get` produces no value, `create_speech` does not serve the
request via the backend — the inner synthesizer is never called; it
returns a replay result over the missing value, whose first pull
raises. -/
theorem create_speech_get_failure_cex :
    ¬ ((create_speech md5hex8stub (fun c => c) redisBroken inner0 "hi" 2).innerCalled
        = true) ∧
    (create_speech md5hex8stub (fun c => c) redisBroken inner0 "hi" 2).result =
      .replay .raisesOnFirstPull := by
  refine ⟨?_, ?_⟩ <;> decide

/-- C7 (amended): when `exists` succeeds but `get` produces no value,
`create_speech` does not fall back to the backend: the inner
synthesizer is not invoked and the caller receives a replay result
built over the absent value, whose first pull raises a `TypeError`
(`if not result` never fires after an exists-hit, because
`create_synthesis_result_from_bytes` always returns a truthy result
object and defers `len(None)` to the lazy generator body). -/
theorem create_speech_get_failure_not_fallback
    (md5hex8 : String → String) (encodeWav : Bytes → Bytes)
    (redis : Redis) (inner : Inner) (text : String) (chunk_size : Nat)
    (hex : redis.existsQ (cache_key md5hex8 text inner.synthesizer_config) = true)
    (hget : redis.getQ (cache_key md5hex8 text inner.synthesizer_config) = none) :
    (create_speech md5hex8 encodeWav redis inner text chunk_size).innerCalled = false ∧
    (create_speech md5hex8 encodeWav redis inner text chunk_size).result =
      .replay .raisesOnFirstPull := by
  constructor <;> simp [create_speech, hex, hget, create_synthesis_result_from_bytes]

/-- C7 witness: the amended behavior at the concrete broken store. -/
theorem create_speech_get_failure_not_fallback_witness :
    (redisBroken.existsQ (cache_key md5hex8stub "go" inner0.synthesizer_config) = true ∧
      redisBroken.getQ (cache_key md5hex8stub "go" inner0.synthesizer_config) = none) ∧
    ((create_speech md5hex8stub (fun c => c) redisBroken inner0 "go" 3).innerCalled
        = false ∧
      (create_speech md5hex8stub (fun c => c) redisBroken inner0 "go" 3).result =
        .replay .raisesOnFirstPull) :=
  ⟨⟨by decide, by decide⟩,
   create_speech_get_failure_not_fallback md5hex8stub (fun c => c) redisBroken inner0
     "go" 3 (by decide) (by decide)⟩

/-- C8: closing the tee after pulling `n` of the source's records (with
`n` strictly below the total) invokes the completion callback exactly
once, with exactly the bytes accumulated from those `n` records, and
leaves the underlying source generator closed. -/
theorem aclose_partial_flushes_and_closes
    (xs : List ChunkResult) (flag : Bool) (n : Nat) (h : n < xs.length) :
    ((pullN n (initWrapper xs flag)).w.aclose).2 =
      [some (((xs.take n).map (stripChunk flag)).flatten)] ∧
    ((pullN n (initWrapper xs flag)).w.aclose).1.generator.closed = true := by
  simp only [initWrapper]
  rw [pullN_take flag n xs [] (le_of_lt h)]
  simp [AsyncGeneratorWrapper.aclose, accFold_eq_append]

/-- C8 witness: close after one of two records; the flush carries
exactly that record's bytes and the source ends up closed. -/
theorem aclose_partial_flushes_and_closes_witness :
    1 < ([⟨[1, 2], false⟩, ⟨[3], true⟩] : List ChunkResult).length ∧
    (((pullN 1 (initWrapper [⟨[1, 2], false⟩, ⟨[3], true⟩] false)).w.aclose).2 =
        [some (((([⟨[1, 2], false⟩, ⟨[3], true⟩] : List ChunkResult).take 1).map
          (stripChunk false)).flatten)] ∧
      (((pullN 1
          (initWrapper [⟨[1, 2], false⟩, ⟨[3], true⟩] false)).w.aclose).1).generator.closed
        = true) :=
  ⟨by decide,
   aclose_partial_flushes_and_closes [⟨[1, 2], false⟩, ⟨[3], true⟩] false 1 (by decide)⟩

/-- C9: the sequence of pull outcomes a consumer obtains from the
tee-wrapped stream is identical, record for record, to what the raw
unwrapped source generator would have produced, for any number of
pulls and with or without the 44-byte header strip configured for
accumulation. -/
theorem tee_preserves_consumer_view (n : Nat) (xs : List ChunkResult) (flag : Bool) :
    (pullN n (initWrapper xs flag)).outs = (genPullN n ⟨xs, false⟩).1 :=
  pullN_outs_eq_genPullN n (initWrapper xs flag) (by intro h; simp [initWrapper] at h)

/-- C10: a record obtained through the tee's `asend` is returned to the
consumer but its bytes are never accumulated: `asend` leaves the
accumulation buffer unchanged, and the completion callback at
exhaustion carries only the bytes of the records pulled via
`__anext__`, with the sent-through record's payload absent. -/
theorem asend_bypasses_accumulation
    (pre post : List ChunkResult) (c : ChunkResult) (flag : Bool) :
    ((pullN pre.length (initWrapper (pre ++ c :: post) flag)).w.asend).1 = .item c ∧
    ((pullN pre.length (initWrapper (pre ++ c :: post) flag)).w.asend).2.all_bytes =
      (pullN pre.length (initWrapper (pre ++ c :: post) flag)).w.all_bytes ∧
    (pullN (post.length + 1)
        ((pullN pre.length (initWrapper (pre ++ c :: post) flag)).w.asend).2).events =
      [some (((pre ++ post).map (stripChunk flag)).flatten)] := by
  have hlen : pre.length ≤ (pre ++ c :: post).length := by simp
  have ht := pullN_take flag pre.length (pre ++ c :: post) [] hlen
  rw [List.take_left, List.drop_left] at ht
  have hacc : accFold flag (accFold flag [] pre) post =
      ((pre ++ post).map (stripChunk flag)).flatten := by
    have h1 : accFold flag [] (pre ++ post) =
        accFold flag (accFold flag [] pre) post := List.foldl_append _ _ _ _
    rw [← h1, accFold_eq_append]
    simp
  simp only [initWrapper]
  rw [ht]
  refine ⟨rfl, rfl, ?_⟩
  show (pullN (post.length + 1)
      ⟨⟨post, false⟩, some (accFold flag [] pre), flag⟩).events = _
  rw [drain_exhaust, hacc]

end CachingSynth
